import Mathlib

/-!
Verification of the core logic of the amazon-csv-sync repository.

The pricing engine (`src/pricing_engine.py`), the identity resolver
(`src/asin_resolver.py`), the reconciliation planner
(`src/product_identify.py`) and the report polling loop
(`src/amazon_reports.py`) are embedded shallowly below.

Modelling conventions:
* Python floats are modelled as rationals (`ℚ`), so the arithmetic is the
  ideal-precision version of the source; the source nudges every value by
  `1e-9` before rounding precisely so that representable-tie behaviour is
  immaterial, and we keep that nudge (`eps`).
* `round(x, 2)` in Python is banker's rounding; after the `+1e-9` nudge used
  everywhere in the source a tie can only occur at points of the form
  `k/100 - 1e-9`, which the source never produces; we model rounding to two
  decimals as round-half-up (`round2`).
* Network responses (catalog lookups, report polls) are inputs of the
  embedded functions: an `Option` value models "HTTP 200 and the JSON parsed"
  (`some payload`) versus "non-200 status or a parse failure" (`none`),
  matching the source's try/except blocks that degrade to "no results".
* `difflib.SequenceMatcher(...).ratio()` is an external library function; it
  enters the model as an oracle parameter `sim : String → String → ℚ`.
  The source's own normalisation (`_norm`) is modelled concretely.
-/

/-! ### Pricing engine (`src/pricing_engine.py`) -/

/-- One margin tier of the configuration, after key-alias resolution
(`max`/`max_cost`/`max_price` and `min_margin`/`min_margin_pct`,
see `_tier_margin`, pricing_engine.py lines 27-33). -/
structure Tier where
  max : ℚ
  min_margin : ℚ
deriving DecidableEq

/-- The effective `pricing_engine` section of the configuration, after the
alias resolution performed by `_cfg` (pricing_engine.py lines 13-25), with
the source's defaults.  `rounding99` is true when the `rounding` pattern is
the string `".99"`; any other pattern behaves exactly like the default
two-decimal rounding (pricing_engine.py lines 35-42), so a Bool suffices. -/
structure PE where
  vat : ℚ := 21/100
  fee_rate : ℚ := 13/100
  fee_surcharge : ℚ := 2/100
  shipping : ℚ := 4
  tiers : List Tier := []
  rounding99 : Bool := false
  min_abs_floor : ℚ := 0
  undercut_step : ℚ := 1/100
  max_price_cap : Option ℚ := none

/-- The `1e-9` nudge the source adds before every rounding call. -/
def eps : ℚ := 1/1000000000

/-- Python's `round(x, 2)` as used in the source (always behind the `eps`
nudge): round half up to two decimals. -/
def round2 (x : ℚ) : ℚ := ((⌊x * 100 + 1/2⌋ : ℤ) : ℚ) / 100

/-- A value that is an exact number of cents. -/
def isCents (q : ℚ) : Prop := ∃ k : ℤ, q = (k : ℚ) / 100

/-- `_tier_margin` (pricing_engine.py lines 27-33): the first tier whose
upper bound is ≥ cost wins; default margin 5%. -/
def tier_margin (cost : ℚ) : List Tier → ℚ
  | [] => 5/100
  | t :: ts => if cost ≤ t.max then t.min_margin else tier_margin cost ts

/-- The commission divisor `1 - fee_rate*(1+fee_surcharge)`, clamped to a
small positive epsilon when ≤ 0 (pricing_engine.py lines 55-56). -/
def feeFactor (pe : PE) : ℚ :=
  if 1 - pe.fee_rate * (1 + pe.fee_surcharge) ≤ 0 then 1/10000
  else 1 - pe.fee_rate * (1 + pe.fee_surcharge)

/-- The price before rounding: `target / fee_factor * (1 + vat)` with
`target = cost*(1+margin) + shipping` (pricing_engine.py lines 50-58). -/
def preRound (cost : ℚ) (pe : PE) : ℚ :=
  (cost * (1 + tier_margin cost pe.tiers) + pe.shipping) / feeFactor pe * (1 + pe.vat)

/-- Python `int(p)`: truncation toward zero. -/
def pyTrunc (p : ℚ) : ℤ := if 0 ≤ p then ⌊p⌋ else ⌈p⌉

/-- The value of `float(f"{n}.99")`: for negative `n` the string `"-k.99"`
parses to `-(k + 0.99)`. -/
def fmt99 (n : ℤ) : ℚ := if n < 0 then (n : ℚ) - 99/100 else (n : ℚ) + 99/100

/-- The body of the `".99"` branch of `_rounding`
(pricing_engine.py lines 39-41), applied to the already 2-decimal-rounded
price `p`. -/
def dot99 (p : ℚ) : ℚ :=
  if 1 ≤ p - (pyTrunc p : ℚ) then fmt99 (pyTrunc p)
  else if p < (pyTrunc p : ℚ) then fmt99 (pyTrunc p - 1)
  else fmt99 (pyTrunc p)

/-- `_rounding` (pricing_engine.py lines 35-42). -/
def rounding (price : ℚ) (pe : PE) : ℚ :=
  if pe.rounding99 then dot99 (round2 (price + eps)) else round2 (price + eps)

/-- The optional absolute minimum floor clamp
(pricing_engine.py lines 60-61). -/
def clampFloor (p : ℚ) (pe : PE) : ℚ :=
  if p < pe.min_abs_floor then pe.min_abs_floor else p

/-- `calc_floor_price` (pricing_engine.py lines 44-62). -/
def calc_floor_price (cost : ℚ) (pe : PE) : ℚ :=
  round2 (clampFloor (rounding (preRound cost pe) pe) pe + eps)

/-- Python `cost or 0.0`: `None` (and `0`, which is falsy) becomes `0.0`. -/
def pyOrZero : Option ℚ → ℚ
  | none => 0
  | some c => c

/-- The competitor-undercut step of `calc_final_price`
(pricing_engine.py lines 76-80): with a positive competitor price, the
candidate `round(competitor_price - undercut_step, 2)` is taken when it
beats the floor. -/
def finalCandidate (floor : ℚ) (competitor : Option ℚ) (pe : PE) : ℚ :=
  match competitor with
  | some cp => if 0 < cp then max floor (round2 (cp - pe.undercut_step)) else floor
  | none => floor

/-- The optional maximum-price cap of `calc_final_price`
(pricing_engine.py lines 81-85). -/
def applyCap (final : ℚ) (pe : PE) : ℚ :=
  match pe.max_price_cap with
  | some cap => if cap ≠ 0 then min final cap else final
  | none => final

/-- `calc_final_price` (pricing_engine.py lines 64-86), keyword-argument
form (the `PricingInputs` object path builds exactly the same values).
Returns `(floor_price, final_price)`.  The competitor guard
`if p.competitor_price and p.competitor_price > 0` and the cap guard
`if max_cap` are Python-truthiness tests, modelled as `0 < cp` and
`cap ≠ 0`. -/
def calc_final_price (cost competitor : Option ℚ) (pe : PE) : ℚ × ℚ :=
  (calc_floor_price (pyOrZero cost) pe,
   round2 (applyCap (finalCandidate (calc_floor_price (pyOrZero cost) pe) competitor pe) pe + eps))

/-- Configuration of the spec's worked scenario: margin tiers
10.01 → 30%, 20 → 50%, everything else at the source defaults. -/
def cfgC2 : PE := { tiers := [⟨1001/100, 3/10⟩, ⟨20, 1/2⟩] }

/-- Default configuration (empty `pricing_engine` dict). -/
def dfltPE : PE := {}

/-- Default configuration with a max price cap of 1. -/
def capPE : PE := { max_price_cap := some 1 }

/-! ### Identity resolver (`src/asin_resolver.py`) -/

/-- Python truthiness of an optional string: `None` and `""` are falsy. -/
def strOptTruthy : Option String → Bool
  | none => false
  | some s => s != ""

/-- Python `a or b` on strings: the empty string is falsy. -/
def pyOrStr (a b : String) : String := if a = "" then b else a

/-- Splits a character list into its maximal non-whitespace words
(`acc` is the current word, reversed). -/
def wordsAux : List Char → List Char → List (List Char)
  | [], acc => if acc.isEmpty then [] else [acc.reverse]
  | c :: rest, acc =>
    if c.isWhitespace then
      if acc.isEmpty then wordsAux rest [] else acc.reverse :: wordsAux rest []
    else wordsAux rest (c :: acc)

/-- `_norm` (asin_resolver.py lines 25-26):
`re.sub(r"\s+", " ", s.strip()).lower()` — strip, collapse whitespace runs
to a single space (equivalently: join the words with single spaces),
lowercase. -/
def normStr (s : String) : String :=
  String.mk ((List.intercalate [' '] (wordsAux s.toList [])).map Char.toLower)

/-- The character class `[A-Z0-9]` of `_extract_model_tokens`. -/
def isAN (c : Char) : Bool := ('A' ≤ c && c ≤ 'Z') || ('0' ≤ c && c ≤ '9')

/-- The character class `[-_A-Z0-9]` of `_extract_model_tokens`. -/
def isTokChar (c : Char) : Bool := isAN c || c == '-' || c == '_'

/-- `re.findall(r"[A-Z0-9]{2,}[-_A-Z0-9]*", s)`: a match starts at two
consecutive alphanumerics and greedily extends over `[-_A-Z0-9]`; scanning
resumes after each match.  The fuel argument (instantiated with the string
length, which bounds the number of scan steps) makes the recursion
structural. -/
def findToks : ℕ → List Char → List (List Char)
  | 0, _ => []
  | _, [] => []
  | _, [_] => []
  | fuel + 1, c1 :: c2 :: rest =>
    if isAN c1 && isAN c2 then
      ((c1 :: c2 :: rest).takeWhile isTokChar) ::
        findToks fuel ((c1 :: c2 :: rest).dropWhile isTokChar)
    else findToks fuel (c2 :: rest)

/-- `_extract_model_tokens` (asin_resolver.py lines 129-130): uppercase the
name, take the regex matches, keep the first 6. -/
def extractModelTokens (s : String) : List String :=
  (((findToks (s.toList.map Char.toUpper).length (s.toList.map Char.toUpper)).map
    (fun cs => String.mk cs)).take 6)

/-- One element of a catalog item's `summaries` list (fields the resolver
reads; absent JSON keys are the empty string, as produced by the source's
`or ""` defaults). -/
structure Summary where
  itemName : String
  brand : String

/-- One catalog item returned by a lookup; `asin` is `Option` because
`it.get("asin")` can be `None`. -/
structure Item where
  asin : Option String
  summaries : List Summary

/-- One scored candidate, as assembled in the resolver's scoring loop
(asin_resolver.py line 204). -/
structure Candidate where
  asin : Option String
  score : ℚ
  title : String
  brand : String

/-- The dictionary returned by `resolve_asin`. -/
structure ResolveResult where
  status : String
  asin : Option String
  score : ℚ
  candidates : List Candidate

/-- The network responses seen by one `resolve_asin` call.  For each lookup,
`none` models a non-200 status or a JSON parse failure (the source's
try/except degrades those to "no result"); `some` carries the parsed
payload.  `listingSummaries` is the `summaries` list of the seller-listing
lookup (each entry that summary's `asin` field); the three item lists are
the `items` arrays of the EAN lookup and of the two keyword searches
(brand-filtered, unfiltered). -/
structure SpaEnv where
  listingSummaries : Option (List (Option String))
  eanItems : Option (List Item)
  kwBrandItems : Option (List Item)
  kwPlainItems : Option (List Item)

/-- Step 1 of `resolve_asin` (asin_resolver.py lines 142-153): the
seller-listing lookup, guarded by `if seller_id and sku`, returning
`listed` when the first summary has a truthy asin. -/
def step1 (env : SpaEnv) (seller_id : Option String) (sku : String) : Option ResolveResult :=
  if strOptTruthy seller_id && sku != "" then
    match env.listingSummaries with
    | some (a :: _) => if strOptTruthy a then some ⟨"listed", a, 1, []⟩ else none
    | _ => none
  else none

/-- Step 2 of `resolve_asin` (asin_resolver.py lines 155-165): the EAN
lookup, guarded by `if ean`, returning `catalog_match` with the first
item's asin when the item list is non-empty. -/
def step2 (env : SpaEnv) (ean : Option String) : Option ResolveResult :=
  if strOptTruthy ean then
    match env.eanItems with
    | some (it :: _) => some ⟨"catalog_match", it.asin, 1, []⟩
    | _ => none
  else none

/-- `_brand_score` (asin_resolver.py lines 188-189). -/
def brandScore (b ref : String) : ℚ :=
  if b != "" && normStr b == normStr ref then 2/10 else 0

/-- The title-similarity bonus (asin_resolver.py lines 199-201). -/
def simBonus (simv : ℚ) : ℚ :=
  if 9/10 ≤ simv then 15/100 else if 8/10 ≤ simv then 1/10 else 0

/-- The first summary of an item, `{}` when the list is empty
(asin_resolver.py line 194). -/
def itemTitle (it : Item) : String := (it.summaries.headD ⟨"", ""⟩).itemName

def itemBrand (it : Item) : String := (it.summaries.headD ⟨"", ""⟩).brand

/-- The un-rounded score of one item: brand weight plus similarity bonus
(asin_resolver.py lines 197-201).  `sim` is the
`difflib.SequenceMatcher(...).ratio()` oracle; `_sim` normalises both
arguments first. -/
def rawScore (sim : String → String → ℚ) (brand query : String) (it : Item) : ℚ :=
  brandScore (itemBrand it) brand + simBonus (sim (normStr (itemTitle it)) (normStr query))

/-- One scored candidate: `sc = round(min(sc, 1.0), 2)`
(asin_resolver.py lines 203-204). -/
def scoreItem (sim : String → String → ℚ) (brand query : String) (it : Item) : Candidate :=
  ⟨it.asin, round2 (min (rawScore sim brand query it) 1), itemTitle it, itemBrand it⟩

/-- The running `best` of the scoring loop: replaced only on a strictly
greater score, so ties keep the first-seen candidate
(asin_resolver.py lines 205-206). -/
def bestAux : List Candidate → Option String × ℚ → Option String × ℚ
  | [], b => b
  | c :: cs, b => bestAux cs (if b.2 < c.score then (c.asin, c.score) else b)

/-- The final `best` after the loop: `None` iff there were no items. -/
def bestOf : List Candidate → Option (Option String × ℚ)
  | [] => none
  | c :: cs => some (bestAux cs (c.asin, c.score))

/-- `max(c["score"] for c in candidates)` (asin_resolver.py line 211);
only evaluated on non-empty lists. -/
def maxScore : List Candidate → ℚ
  | [] => 0
  | c :: cs => cs.foldl (fun m x => max m x.score) c.score

/-- The `items` list after the two keyword searches
(asin_resolver.py lines 167-184): the brand-filtered result if non-empty,
else the unfiltered result; a failed call contributes `[]`. -/
def kwItems (env : SpaEnv) : List Item :=
  if (env.kwBrandItems.getD []).isEmpty then env.kwPlainItems.getD []
  else env.kwBrandItems.getD []

/-- The similarity reference string `f"{brand} {' '.join(tokens)}"` with
tokens extracted from `name or sku` (asin_resolver.py lines 186, 199). -/
def kwQuery (sku name brand : String) : String :=
  brand ++ " " ++ String.intercalate " " (extractModelTokens (pyOrStr name sku))

/-- All scored candidates of the keyword phase, in item order. -/
def kwCands (env : SpaEnv) (sim : String → String → ℚ) (sku name brand : String) :
    List Candidate :=
  (kwItems env).map (scoreItem sim brand (kwQuery sku name brand))

/-- The keyword phase of `resolve_asin` (asin_resolver.py lines 167-212):
threshold 0.80 on the best score, else ambiguous with the first five
candidates (`candidates[:5]`), else not found. -/
def keywordPart (env : SpaEnv) (sim : String → String → ℚ) (sku name brand : String) :
    ResolveResult :=
  match bestOf (kwCands env sim sku name brand) with
  | none => ⟨"not_found", none, 0, []⟩
  | some b =>
    if 8/10 ≤ b.2 then
      ⟨"catalog_match", b.1, b.2, (kwCands env sim sku name brand).take 5⟩
    else
      ⟨"catalog_ambiguous", none, maxScore (kwCands env sim sku name brand),
        (kwCands env sim sku name brand).take 5⟩

/-- `resolve_asin` (asin_resolver.py lines 132-212): the three phases in
order, first definitive answer wins. -/
def resolve_asin (env : SpaEnv) (sim : String → String → ℚ)
    (sku name brand : String) (ean seller_id : Option String) : ResolveResult :=
  match step1 env seller_id sku with
  | some r => r
  | none =>
    match step2 env ean with
    | some r => r
    | none => keywordPart env sim sku name brand

/-! ### Reconciliation planner (`src/product_identify.py`) -/

/-- One row of `data/my_inventory.csv` (the columns the planner reads). -/
structure InvRow where
  asin : String
  seller_sku : String

/-- Python `str(...)` on the resolver's asin value: `str(None)` is the
string `"None"`. -/
def pyStr : Option String → String
  | none => "None"
  | some s => s

/-- `.strip().upper()` normalisation used for asin comparison
(product_identify.py lines 62-63, 76): drop leading and trailing
whitespace, uppercase. -/
def upStrip (s : String) : String :=
  String.mk
    ((((s.toList.dropWhile Char.isWhitespace).reverse.dropWhile
        Char.isWhitespace).reverse).map Char.toUpper)

/-- `asins_meus` (product_identify.py line 62): the normalised asins of the
seller's inventory. -/
def invAsins (inv : List InvRow) : List String := inv.map (fun r => upStrip r.asin)

/-- `asin2sku.get(asin, "")` (product_identify.py lines 63, 83): the dict
comprehension lets later rows overwrite earlier ones, so the last matching
row wins. -/
def asin2sku (inv : List InvRow) (a : String) : String :=
  ((inv.reverse.find? (fun r => upStrip r.asin == a)).map InvRow.seller_sku).getD ""

/-- The per-row output of `classify_products` (the fields decided by the
classification logic). -/
structure RowOut where
  existence : String
  asin : String
  action : String
  my_seller_sku : String

/-- The status → action mapping (product_identify.py lines 85-92). -/
def actionFor (status : String) : String :=
  if status = "listed" then "update_price_stock"
  else if status = "catalog_match" then "create_listing"
  else if status = "catalog_ambiguous" then "review"
  else "create_product"

/-- The per-row body of the `classify_products` loop
(product_identify.py lines 75-103): normalise the resolver's asin
(`str(...)` then strip/upper), force `listed` when it is a non-empty member
of the seller's inventory index, then map status to action. -/
def classify_row (resStatus : String) (resAsin : Option String) (inv : List InvRow) : RowOut :=
  { existence :=
      if upStrip (pyStr resAsin) != "" && (invAsins inv).contains (upStrip (pyStr resAsin))
      then "listed" else resStatus
    asin := upStrip (pyStr resAsin)
    action :=
      actionFor (if upStrip (pyStr resAsin) != "" &&
                    (invAsins inv).contains (upStrip (pyStr resAsin))
                 then "listed" else resStatus)
    my_seller_sku :=
      if upStrip (pyStr resAsin) != "" && (invAsins inv).contains (upStrip (pyStr resAsin))
      then asin2sku inv (upStrip (pyStr resAsin)) else "" }

/-! ### Report polling (`src/amazon_reports.py`) -/

/-- The fields of a report payload read by the polling loop. -/
structure Report where
  reportId : String
  processingStatus : String
  reportDocumentId : String

/-- The terminal statuses (amazon_reports.py line 89). -/
def isTerminal (st : String) : Bool :=
  st == "DONE" || st == "CANCELLED" || st == "FATAL" || st == "ERROR"

/-- The polling loop of `wait_report` (amazon_reports.py lines 85-93).
`polls k` is the payload of the k-th `get_report` call; the elapsed time
before the k-th deadline check is `k * poll_every` (the k sleeps performed
so far).  The loop runs until a terminal status or until the deadline
check fires; the fuel argument (sufficient whenever `poll_every > 0`)
makes the recursion structural. -/
def waitAux (polls : ℕ → Report) (t pe : ℕ) : ℕ → ℕ → Report
  | 0, k => polls k
  | fuel + 1, k =>
    if isTerminal (polls k).processingStatus then polls k
    else if t < k * pe then polls k
    else waitAux polls t pe fuel (k + 1)

/-- `wait_report` (amazon_reports.py lines 82-93): in simulation a canned
DONE payload; otherwise the polling loop (defaults in the source:
`timeout_sec=900, poll_every=10`; the inventory report uses 900/15). -/
def wait_report (simulate : Bool) (polls : ℕ → Report) (report_id : String)
    (timeout_sec poll_every : ℕ) : Report :=
  if simulate then ⟨report_id, "DONE", "SIM-DOC"⟩
  else waitAux polls timeout_sec poll_every (timeout_sec / poll_every + 2) 0

/-! ### Concrete inputs used by witnesses and counterexamples -/

/-- A similarity oracle that returns 0 everywhere (the `SequenceMatcher`
ratio of an empty string against anything is 0, so this agrees with the
real library on the items below, whose titles are empty). -/
def sim0 : String → String → ℚ := fun _ _ => 0

def itemOther : Item := ⟨some "A1", [⟨"", "otherbrand"⟩]⟩

def itemAcme : Item := ⟨some "A2", [⟨"", "acme"⟩]⟩

/-- Keyword search returns a non-matching-brand item first, then a
brand-matching one. -/
def envC6 : SpaEnv := ⟨none, none, some [itemOther, itemAcme], none⟩

/-- All lookups fail. -/
def envEmpty : SpaEnv := ⟨none, none, none, none⟩

/-- The EAN lookup succeeds with one item. -/
def envC5 : SpaEnv := ⟨none, some [⟨some "B0EAN1", []⟩], none, none⟩

/-- The scored candidate produced for `itemOther` (brand mismatch,
similarity 0): score 0. -/
def candOther : Candidate := ⟨some "A1", 0, "", "otherbrand"⟩

/-- The scored candidate produced for `itemAcme` (brand match,
similarity 0): score 0.2. -/
def candAcme : Candidate := ⟨some "A2", 2/10, "", "acme"⟩

def inprogR : Report := ⟨"R1", "IN_PROGRESS", ""⟩

def doneR : Report := ⟨"R1", "DONE", "DOC1"⟩

/-- Polls: IN_PROGRESS, IN_PROGRESS, then DONE forever. -/
def pollsC8 : ℕ → Report := fun k => if k = 2 then doneR else inprogR

/-- Polls: IN_PROGRESS forever. -/
def pollsC9 : ℕ → Report := fun _ => inprogR

/-! ### Helper lemmas: rounding arithmetic -/

/-- `round2` is monotone. -/
theorem round2_mono {x y : ℚ} (h : x ≤ y) : round2 x ≤ round2 y := by
  unfold round2
  have hfl : (⌊x * 100 + 1/2⌋ : ℤ) ≤ ⌊y * 100 + 1/2⌋ :=
    Int.floor_le_floor (by linarith)
  have : ((⌊x * 100 + 1/2⌋ : ℤ) : ℚ) ≤ ((⌊y * 100 + 1/2⌋ : ℤ) : ℚ) := by
    exact_mod_cast hfl
  linarith

theorem round2_isCents (x : ℚ) : isCents (round2 x) := ⟨⌊x * 100 + 1/2⌋, rfl⟩

/-- Re-rounding an exact-cents value after the `1e-9` nudge returns it
unchanged. -/
theorem round2_eps_cents {q : ℚ} (h : isCents q) : round2 (q + eps) = q := by
  obtain ⟨k, rfl⟩ := h
  unfold round2 eps
  have hfl : ⌊((k : ℚ) / 100 + 1/1000000000) * 100 + 1/2⌋ = k := by
    rw [Int.floor_eq_iff]
    constructor
    · linarith
    · linarith
  rw [hfl]

/-- The `".99"` branch in closed form: floor plus 0.99 for non-negative
inputs, floor minus 0.99 for negative ones (the string `f"{n}.99"` for a
negative integer part parses to `-(|n| + 0.99)`). -/
theorem dot99_eq (p : ℚ) :
    dot99 p = if 0 ≤ p then (⌊p⌋ : ℚ) + 99/100 else (⌊p⌋ : ℚ) - 99/100 := by
  by_cases hp : 0 ≤ p
  · have hpt : pyTrunc p = ⌊p⌋ := if_pos hp
    have h1 : ¬ (1 ≤ p - ((⌊p⌋ : ℤ) : ℚ)) := by
      have := Int.sub_one_lt_floor p
      push_neg
      linarith
    have h2 : ¬ (p < ((⌊p⌋ : ℤ) : ℚ)) := not_lt.mpr (Int.floor_le p)
    have h3 : ¬ ((⌊p⌋ : ℤ) < 0) := not_lt.mpr (Int.floor_nonneg.mpr hp)
    rw [if_pos hp]
    unfold dot99
    rw [hpt, if_neg h1, if_neg h2]
    unfold fmt99
    rw [if_neg h3]
  · have hpt : pyTrunc p = ⌈p⌉ := if_neg hp
    have hneg : p < 0 := not_le.mp hp
    have h1 : ¬ (1 ≤ p - ((⌈p⌉ : ℤ) : ℚ)) := by
      have := Int.le_ceil p
      push_neg
      linarith
    rw [if_neg hp]
    unfold dot99
    rw [hpt, if_neg h1]
    by_cases h2 : p < ((⌈p⌉ : ℤ) : ℚ)
    · rw [if_pos h2]
      have hfl : ⌊p⌋ = ⌈p⌉ - 1 := by
        rw [Int.floor_eq_iff]
        have hc := Int.ceil_lt_add_one p
        constructor
        · push_cast
          linarith
        · push_cast
          linarith
      have hneg2 : (⌈p⌉ : ℤ) - 1 < 0 := by
        have hle : ((⌈p⌉ : ℤ) : ℚ) - 1 ≤ p := by
          have := Int.ceil_lt_add_one p
          linarith
        by_contra hcon
        push_neg at hcon
        have : (0 : ℚ) ≤ ((⌈p⌉ - 1 : ℤ) : ℚ) := by exact_mod_cast hcon
        push_cast at this
        linarith
      unfold fmt99
      rw [if_pos hneg2, hfl]
    · rw [if_neg h2]
      have hpint : p = ((⌈p⌉ : ℤ) : ℚ) := le_antisymm (Int.le_ceil p) (not_lt.mp h2)
      have hfl : ⌊p⌋ = ⌈p⌉ := by
        conv_lhs => rw [hpint]
        exact Int.floor_intCast _
      have hneg2 : (⌈p⌉ : ℤ) < 0 := by
        by_contra hcon
        push_neg at hcon
        have : (0 : ℚ) ≤ ((⌈p⌉ : ℤ) : ℚ) := by exact_mod_cast hcon
        rw [← hpint] at this
        linarith
      unfold fmt99
      rw [if_pos hneg2, hfl]

/-- The `".99"` rounding is monotone. -/
theorem dot99_mono {p q : ℚ} (h : p ≤ q) : dot99 p ≤ dot99 q := by
  rw [dot99_eq, dot99_eq]
  have hf : ((⌊p⌋ : ℤ) : ℚ) ≤ ((⌊q⌋ : ℤ) : ℚ) := by
    exact_mod_cast Int.floor_le_floor h
  by_cases hp : 0 ≤ p <;> by_cases hq : 0 ≤ q
  · simp only [hp, hq, if_true]
    linarith
  · exact absurd (le_trans hp h) hq
  · simp only [hp, hq, if_true, if_false]
    linarith
  · simp only [hp, hq, if_false]
    linarith

/-- `_rounding` is monotone for every configuration. -/
theorem rounding_mono {x y : ℚ} (pe : PE) (h : x ≤ y) :
    rounding x pe ≤ rounding y pe := by
  unfold rounding
  by_cases hb : pe.rounding99
  · simp only [hb, if_true]
    exact dot99_mono (round2_mono (by linarith))
  · simp only [hb, if_false]
    exact round2_mono (by linarith)

/-- The minimum-floor clamp is monotone. -/
theorem clampFloor_mono {p q : ℚ} (pe : PE) (h : p ≤ q) :
    clampFloor p pe ≤ clampFloor q pe := by
  unfold clampFloor
  split_ifs <;> linarith

/-- The commission divisor is positive after the clamp. -/
theorem feeFactor_pos (pe : PE) : 0 < feeFactor pe := by
  unfold feeFactor
  split_ifs with h
  · norm_num
  · linarith [not_le.mp h]

/-! ### Claims C1-C4: pricing engine -/

/-- C1 (amended): for every cost, competitor price and configuration
WITHOUT a max price cap, `calc_final_price` returns
`final_price ≥ floor_price`.  (The claim as stated, quantified over all
configurations, is false: the `max_price_cap` clamp is applied after the
floor and can push the final price below it — see the counterexample.) -/
theorem recommended_ge_floor_without_cap (cost competitor : Option ℚ) (pe : PE)
    (hcap : pe.max_price_cap = none) :
    (calc_final_price cost competitor pe).1 ≤ (calc_final_price cost competitor pe).2 := by
  unfold calc_final_price
  dsimp only
  have hcents : isCents (calc_floor_price (pyOrZero cost) pe) := round2_isCents _
  have hff : isCents (finalCandidate (calc_floor_price (pyOrZero cost) pe) competitor pe) ∧
      calc_floor_price (pyOrZero cost) pe ≤
        finalCandidate (calc_floor_price (pyOrZero cost) pe) competitor pe := by
    cases competitor with
    | none => exact ⟨hcents, le_refl _⟩
    | some cp =>
      simp only [finalCandidate]
      by_cases h : 0 < cp
      · rw [if_pos h]
        constructor
        · rcases le_total (calc_floor_price (pyOrZero cost) pe)
            (round2 (cp - pe.undercut_step)) with h2 | h2
          · rw [max_eq_right h2]
            exact round2_isCents _
          · rw [max_eq_left h2]
            exact hcents
        · exact le_max_left _ _
      · rw [if_neg h]
        exact ⟨hcents, le_refl _⟩
  have hcap2 : applyCap (finalCandidate (calc_floor_price (pyOrZero cost) pe) competitor pe) pe =
      finalCandidate (calc_floor_price (pyOrZero cost) pe) competitor pe := by
    unfold applyCap
    rw [hcap]
  rw [hcap2, round2_eps_cents hff.1]
  exact hff.2

/-- Witness for C1's amended theorem at a concrete input. -/
theorem recommended_ge_floor_without_cap_witness :
    (calc_final_price (some 15) (some 50) dfltPE).1 ≤
      (calc_final_price (some 15) (some 50) dfltPE).2 :=
  recommended_ge_floor_without_cap (some 15) (some 50) dfltPE rfl

/-- C1 counterexample: with the default configuration plus
`max_price_cap = 1` and cost 15, `calc_final_price` returns
`floor_price = 27.55` but `final_price = 1 < floor_price`, refuting
"for every configuration, recommended_price ≥ floor_price". -/
theorem final_below_floor_with_cap :
    (calc_final_price (some 15) none capPE).2 < (calc_final_price (some 15) none capPE).1 := by
  norm_num [calc_final_price, applyCap, finalCandidate, capPE, calc_floor_price, clampFloor,
    rounding, preRound, feeFactor, tier_margin, pyOrZero, round2, eps]

/-- C2: the spec's worked scenario.  cost = 15, margin tier
10.01 → 30% / 20 → 50%, shipping 4, surcharge 0.02, fee rate 0.13,
vat 0.21, plain 2-decimal rounding, no absolute minimum floor:
`calc_floor_price` returns exactly 36.97. -/
theorem floor_price_worked_scenario : calc_floor_price 15 cfgC2 = 3697/100 := by
  norm_num [calc_floor_price, clampFloor, rounding, preRound, feeFactor, tier_margin,
    cfgC2, round2, eps]

/-- C3 (amended): a missing (`None`) cost is treated as cost 0 — for every
competitor price and configuration the result equals the cost-0 result.
(The claim's stronger statement that NEGATIVE costs are also treated as 0
is false: a negative cost flows through the computation unchanged — see
the counterexample.  Exceptions do not arise in the numeric domain: the
embedded functions are total.) -/
theorem none_cost_equals_zero_cost :
    ∀ (competitor : Option ℚ) (pe : PE),
      calc_final_price none competitor pe = calc_final_price (some 0) competitor pe :=
  fun _ _ => rfl

/-- C3 counterexample: under the default configuration, cost −5 yields
`(0, 0)` (the negative floor is clamped by the default
`min_abs_floor = 0`) while cost 0 yields `(5.58, 5.58)` — a negative cost
is NOT treated as cost 0. -/
theorem negative_cost_not_zeroed :
    calc_final_price (some (-5)) none dfltPE ≠ calc_final_price (some 0) none dfltPE := by
  norm_num [calc_final_price, applyCap, finalCandidate, dfltPE, calc_floor_price, clampFloor,
    rounding, preRound, feeFactor, tier_margin, pyOrZero, round2, eps, Prod.ext_iff]

/-- C4: for costs `0 ≤ c1 ≤ c2` that receive the same margin from the tier
table, and any configuration whose selected margin and vat rate are at
least −100% (every real configuration), `calc_floor_price` is
non-decreasing — under both rounding policies (the configuration `pe` is
arbitrary, so this covers plain 2-decimal rounding and the `".99"`
policy) and with the optional absolute minimum floor applied. -/
theorem floor_mono_within_tier (c1 c2 : ℚ) (pe : PE)
    (h0 : 0 ≤ c1) (h12 : c1 ≤ c2)
    (htier : tier_margin c1 pe.tiers = tier_margin c2 pe.tiers)
    (hm : -1 ≤ tier_margin c1 pe.tiers)
    (hvat : -1 ≤ pe.vat) :
    calc_floor_price c1 pe ≤ calc_floor_price c2 pe := by
  have hff := feeFactor_pos pe
  have hpre : preRound c1 pe ≤ preRound c2 pe := by
    unfold preRound
    rw [← htier]
    have h1 : c1 * (1 + tier_margin c1 pe.tiers) + pe.shipping ≤
        c2 * (1 + tier_margin c1 pe.tiers) + pe.shipping := by
      have := mul_le_mul_of_nonneg_right h12
        (by linarith : (0:ℚ) ≤ 1 + tier_margin c1 pe.tiers)
      linarith
    have h2 : (c1 * (1 + tier_margin c1 pe.tiers) + pe.shipping) / feeFactor pe ≤
        (c2 * (1 + tier_margin c1 pe.tiers) + pe.shipping) / feeFactor pe :=
      (div_le_div_iff_of_pos_right hff).mpr h1
    exact mul_le_mul_of_nonneg_right h2 (by linarith : (0:ℚ) ≤ 1 + pe.vat)
  unfold calc_floor_price
  exact round2_mono (add_le_add_right (clampFloor_mono pe (rounding_mono pe hpre)) eps)

/-- Witness for C4 at a concrete input: costs 12 and 15 share the
50%-margin tier of the worked-scenario configuration. -/
theorem floor_mono_within_tier_witness :
    calc_floor_price 12 cfgC2 ≤ calc_floor_price 15 cfgC2 :=
  floor_mono_within_tier 12 15 cfgC2 (by norm_num) (by norm_num)
    (by norm_num [tier_margin, cfgC2]) (by norm_num [tier_margin, cfgC2])
    (by norm_num [cfgC2])

/-! ### Helper lemmas: resolver scoring -/

/-- Every keyword-phase candidate scores at most 0.35: the brand weight is
at most 0.2 and the similarity bonus at most 0.15, whatever the similarity
oracle returns. -/
theorem scoreItem_score_le (sim : String → String → ℚ) (brand query : String) (it : Item) :
    (scoreItem sim brand query it).score ≤ 7/20 := by
  unfold scoreItem
  dsimp only
  have hraw : rawScore sim brand query it ≤ 7/20 := by
    unfold rawScore brandScore simBonus
    split_ifs <;> norm_num
  have hmin : min (rawScore sim brand query it) 1 ≤ 7/20 :=
    le_trans (min_le_left _ _) hraw
  calc round2 (min (rawScore sim brand query it) 1)
      ≤ round2 (7/20) := round2_mono hmin
    _ = 7/20 := by norm_num [round2]

/-- The running best never exceeds a bound satisfied by the seed and all
list elements. -/
theorem bestAux_le (bound : ℚ) :
    ∀ (cs : List Candidate) (b : Option String × ℚ),
      b.2 ≤ bound → (∀ c ∈ cs, c.score ≤ bound) → (bestAux cs b).2 ≤ bound := by
  intro cs
  induction cs with
  | nil =>
    intro b hb _
    simpa [bestAux] using hb
  | cons c cs ih =>
    intro b hb hcs
    simp only [bestAux]
    apply ih
    · by_cases h : b.2 < c.score
      · simp only [if_pos h]
        exact hcs c (List.mem_cons_self _ _)
      · simp only [if_neg h]
        exact hb
    · intro x hx
      exact hcs x (List.mem_cons_of_mem _ hx)

theorem le_foldl_maxScore (cs : List Candidate) :
    ∀ i : ℚ, i ≤ cs.foldl (fun m x => max m x.score) i := by
  induction cs with
  | nil =>
    intro i
    simp
  | cons c cs ih =>
    intro i
    simp only [List.foldl]
    exact le_trans (le_max_left _ _) (ih _)

theorem mem_le_foldl_maxScore (cs : List Candidate) :
    ∀ (i : ℚ) (x : Candidate), x ∈ cs → x.score ≤ cs.foldl (fun m x => max m x.score) i := by
  induction cs with
  | nil =>
    intro i x hx
    cases hx
  | cons c cs ih =>
    intro i x hx
    rcases List.mem_cons.mp hx with h | h
    · subst h
      simp only [List.foldl]
      exact le_trans (le_max_right _ _) (le_foldl_maxScore cs _)
    · exact ih _ x h

/-- `maxScore` bounds every member's score. -/
theorem maxScore_ge {c : Candidate} {l : List Candidate} (h : c ∈ l) :
    c.score ≤ maxScore l := by
  cases l with
  | nil => cases h
  | cons c0 cs =>
    unfold maxScore
    rcases List.mem_cons.mp h with h | h
    · subst h
      exact le_foldl_maxScore cs _
    · exact mem_le_foldl_maxScore cs _ c h

/-- A seller-listing phase answer always has status `listed`. -/
theorem step1_status {env : SpaEnv} {sid : Option String} {sku : String} {r : ResolveResult}
    (h : step1 env sid sku = some r) : r.status = "listed" := by
  unfold step1 at h
  split at h
  · split at h
    · split at h
      · injection h with h2
        rw [← h2]
      · exact absurd h (by simp)
    · exact absurd h (by simp)
  · exact absurd h (by simp)

/-- An EAN phase answer always has status `catalog_match`. -/
theorem step2_status {env : SpaEnv} {ean : Option String} {r : ResolveResult}
    (h : step2 env ean = some r) : r.status = "catalog_match" := by
  unfold step2 at h
  split at h
  · split at h
    · injection h with h2
      rw [← h2]
    · exact absurd h (by simp)
  · exact absurd h (by simp)

/-! ### Claims C5, C6, C10: identity resolver -/

/-- C5: when the seller-listing phase produces no match, an ean is present
(non-empty) and the identifier lookup returns a non-empty item list,
`resolve_asin` returns `catalog_match` with score 1.0 and the first item's
asin — and the result does not depend on the keyword-search responses
(the environment's keyword fields are universally quantified and absent
from the conclusion). -/
theorem ean_match_short_circuits (env : SpaEnv) (sim : String → String → ℚ)
    (sku name brand e : String) (seller_id : Option String)
    (it : Item) (rest : List Item)
    (h1 : step1 env seller_id sku = none)
    (he : e ≠ "")
    (h2 : env.eanItems = some (it :: rest)) :
    resolve_asin env sim sku name brand (some e) seller_id =
      ⟨"catalog_match", it.asin, 1, []⟩ := by
  unfold resolve_asin
  rw [h1]
  have hs2 : step2 env (some e) = some ⟨"catalog_match", it.asin, 1, []⟩ := by
    unfold step2
    have ht : strOptTruthy (some e) = true := by
      simp [strOptTruthy, he]
    rw [ht, h2]
    rfl
  rw [hs2]

/-- Witness for C5 at a concrete input. -/
theorem ean_match_short_circuits_witness :
    resolve_asin envC5 sim0 "SKU1" "Name" "brand" (some "8431234567890") none =
      ⟨"catalog_match", some "B0EAN1", 1, []⟩ :=
  ean_match_short_circuits envC5 sim0 "SKU1" "Name" "brand" "8431234567890" none
    ⟨some "B0EAN1", []⟩ [] rfl (by decide) rfl

/-- C10: whenever resolution falls through to the keyword-search phase
(both the seller-listing and the EAN phase produced no answer), the result
is `catalog_ambiguous` or `not_found`, never `catalog_match`: every
keyword candidate scores at most 0.35 (0.2 brand + 0.15 similarity),
below the 0.80 threshold — for every similarity oracle. -/
theorem keyword_path_never_catalog_match (env : SpaEnv) (sim : String → String → ℚ)
    (sku name brand : String) (ean seller_id : Option String)
    (h1 : step1 env seller_id sku = none)
    (h2 : step2 env ean = none) :
    (resolve_asin env sim sku name brand ean seller_id).status = "catalog_ambiguous" ∨
    (resolve_asin env sim sku name brand ean seller_id).status = "not_found" := by
  have hred : resolve_asin env sim sku name brand ean seller_id =
      keywordPart env sim sku name brand := by
    unfold resolve_asin
    rw [h1, h2]
  rw [hred]
  unfold keywordPart
  have hall : ∀ x ∈ kwCands env sim sku name brand, x.score ≤ 7/20 := by
    intro x hx
    unfold kwCands at hx
    rcases List.mem_map.mp hx with ⟨it, _, rfl⟩
    exact scoreItem_score_le _ _ _ _
  cases hb : bestOf (kwCands env sim sku name brand) with
  | none =>
    right
    rfl
  | some b =>
    have hble : b.2 ≤ 7/20 := by
      cases hk : kwCands env sim sku name brand with
      | nil =>
        rw [hk] at hb
        exact absurd hb (by simp [bestOf])
      | cons c cs =>
        rw [hk] at hb
        simp only [bestOf, Option.some.injEq] at hb
        rw [← hb]
        apply bestAux_le
        · exact hall c (by rw [hk]; exact List.mem_cons_self _ _)
        · intro x hx
          exact hall x (by rw [hk]; exact List.mem_cons_of_mem _ hx)
    have hth : ¬ ((8:ℚ)/10 ≤ b.2) := not_le.mpr (lt_of_le_of_lt hble (by norm_num))
    simp only [if_neg hth]
    left
    trivial

/-- Witness for C10 at a concrete input (all lookups fail, so the keyword
phase runs and returns not_found). -/
theorem keyword_path_never_catalog_match_witness :
    (resolve_asin envEmpty sim0 "X" "" "" none none).status = "catalog_ambiguous" ∨
    (resolve_asin envEmpty sim0 "X" "" "" none none).status = "not_found" :=
  keyword_path_never_catalog_match envEmpty sim0 "X" "" "" none none rfl rfl

/-! ### Evaluation of the resolver on the concrete C6 environment -/

theorem brandScore_other : brandScore "otherbrand" "acme" = 0 := by
  unfold brandScore
  rw [if_neg (by decide :
    ¬ (("otherbrand" != "" && (normStr "otherbrand" == normStr "acme")) = true))]

theorem brandScore_same : brandScore "acme" "acme" = 2/10 := by
  unfold brandScore
  rw [if_pos (by decide :
    ("acme" != "" && (normStr "acme" == normStr "acme")) = true)]

theorem scoreItem_other_eval (q : String) :
    scoreItem sim0 "acme" q itemOther = candOther := by
  have hib : itemBrand itemOther = "otherbrand" := rfl
  have hit : itemTitle itemOther = "" := rfl
  have hraw : rawScore sim0 "acme" q itemOther = 0 := by
    simp only [rawScore, hib, hit, brandScore_other, sim0, simBonus]
    norm_num
  unfold scoreItem candOther
  rw [hraw, hib, hit]
  norm_num [round2, itemOther]

theorem scoreItem_acme_eval (q : String) :
    scoreItem sim0 "acme" q itemAcme = candAcme := by
  have hib : itemBrand itemAcme = "acme" := rfl
  have hit : itemTitle itemAcme = "" := rfl
  have hraw : rawScore sim0 "acme" q itemAcme = 2/10 := by
    simp only [rawScore, hib, hit, brandScore_same, sim0, simBonus]
    norm_num
  unfold scoreItem candAcme
  rw [hraw, hib, hit]
  norm_num [round2, itemAcme]

theorem kwCandsC6_eval : kwCands envC6 sim0 "S" "" "acme" = [candOther, candAcme] := by
  have hi : kwItems envC6 = [itemOther, itemAcme] := rfl
  unfold kwCands
  rw [hi]
  simp [scoreItem_other_eval, scoreItem_acme_eval]

/-- Full evaluation of `resolve_asin` on the C6 environment: an ambiguous
result whose candidate list is in item order (score 0 before score 0.2). -/
theorem resolveC6_eval :
    resolve_asin envC6 sim0 "S" "" "acme" none none =
      ⟨"catalog_ambiguous", none, 2/10, [candOther, candAcme]⟩ := by
  have hred : resolve_asin envC6 sim0 "S" "" "acme" none none =
      keywordPart envC6 sim0 "S" "" "acme" := rfl
  have hbest : bestOf [candOther, candAcme] = some (some "A2", 2/10) := by
    norm_num [bestOf, bestAux, candOther, candAcme]
  rw [hred]
  unfold keywordPart
  rw [kwCandsC6_eval]
  simp only [hbest]
  rw [if_neg (by norm_num : ¬ ((8:ℚ)/10 ≤ ((some "A2", (2:ℚ)/10) : Option String × ℚ).2))]
  norm_num [maxScore, candOther, candAcme]

/-- C6 counterexample: on `envC6` the resolver returns
`catalog_ambiguous`, but the returned candidates are in ITEM order
(scores `[0, 0.2]`), not ordered by descending score — `candidates[:5]`
truncates the unsorted list. -/
theorem ambiguous_candidates_not_sorted :
    (resolve_asin envC6 sim0 "S" "" "acme" none none).status = "catalog_ambiguous" ∧
    ¬ List.Chain' (fun a b => b ≤ a)
        ((resolve_asin envC6 sim0 "S" "" "acme" none none).candidates.map Candidate.score) := by
  rw [resolveC6_eval]
  constructor
  · rfl
  · norm_num [candOther, candAcme, List.chain'_cons]

/-- C6 (amended): whenever `resolve_asin` returns `catalog_ambiguous`,
the candidates field is the FIRST five scored candidates in the order the
items were returned (not sorted, and not necessarily the five largest),
and the returned score is the maximum over ALL candidates — in particular
it bounds every returned candidate's score. -/
theorem ambiguous_first_five_in_order (env : SpaEnv) (sim : String → String → ℚ)
    (sku name brand : String) (ean seller_id : Option String)
    (h : (resolve_asin env sim sku name brand ean seller_id).status = "catalog_ambiguous") :
    (resolve_asin env sim sku name brand ean seller_id).candidates =
      (kwCands env sim sku name brand).take 5 ∧
    (resolve_asin env sim sku name brand ean seller_id).score =
      maxScore (kwCands env sim sku name brand) ∧
    ∀ c ∈ (resolve_asin env sim sku name brand ean seller_id).candidates,
      c.score ≤ (resolve_asin env sim sku name brand ean seller_id).score := by
  cases hs1 : step1 env seller_id sku with
  | some r =>
    have hres : resolve_asin env sim sku name brand ean seller_id = r := by
      unfold resolve_asin
      rw [hs1]
    rw [hres] at h
    rw [step1_status hs1] at h
    exact absurd h (by decide)
  | none =>
    cases hs2 : step2 env ean with
    | some r =>
      have hres : resolve_asin env sim sku name brand ean seller_id = r := by
        unfold resolve_asin
        rw [hs1, hs2]
      rw [hres] at h
      rw [step2_status hs2] at h
      exact absurd h (by decide)
    | none =>
      have hres : resolve_asin env sim sku name brand ean seller_id =
          keywordPart env sim sku name brand := by
        unfold resolve_asin
        rw [hs1, hs2]
      rw [hres] at h ⊢
      unfold keywordPart at h ⊢
      cases hb : bestOf (kwCands env sim sku name brand) with
      | none =>
        simp only [hb] at h
        simp at h
      | some b =>
        simp only [hb] at h ⊢
        by_cases hth : (8:ℚ)/10 ≤ b.2
        · rw [if_pos hth] at h
          simp at h
        · rw [if_neg hth]
          refine ⟨rfl, rfl, ?_⟩
          intro c hc
          have hmem : c ∈ kwCands env sim sku name brand :=
            List.take_subset 5 _ hc
          exact maxScore_ge hmem

/-- Witness for C6's amended theorem at the concrete C6 environment. -/
theorem ambiguous_first_five_in_order_witness :
    (resolve_asin envC6 sim0 "S" "" "acme" none none).candidates =
      (kwCands envC6 sim0 "S" "" "acme").take 5 ∧
    (resolve_asin envC6 sim0 "S" "" "acme" none none).score =
      maxScore (kwCands envC6 sim0 "S" "" "acme") ∧
    ∀ c ∈ (resolve_asin envC6 sim0 "S" "" "acme" none none).candidates,
      c.score ≤ (resolve_asin envC6 sim0 "S" "" "acme" none none).score :=
  ambiguous_first_five_in_order envC6 sim0 "S" "" "acme" none none
    (by rw [resolveC6_eval])

/-! ### Claim C7: reconciliation planner -/

/-- C7: the planner forces status `listed` whenever the resolved catalog
id (normalised) is non-empty and present in the seller's current-listings
index — regardless of the resolver's status — and maps the (forced)
status to an action exactly as: listed → update_price_stock,
catalog_match → create_listing, catalog_ambiguous → review, everything
else → create_product. -/
theorem classify_row_spec (resStatus : String) (resAsin : Option String) (inv : List InvRow) :
    ((upStrip (pyStr resAsin) ≠ "" ∧ upStrip (pyStr resAsin) ∈ invAsins inv) →
      (classify_row resStatus resAsin inv).existence = "listed") ∧
    (classify_row resStatus resAsin inv).action =
      (if (classify_row resStatus resAsin inv).existence = "listed" then "update_price_stock"
       else if (classify_row resStatus resAsin inv).existence = "catalog_match" then
         "create_listing"
       else if (classify_row resStatus resAsin inv).existence = "catalog_ambiguous" then
         "review"
       else "create_product") := by
  constructor
  · rintro ⟨h1, h2⟩
    have hcond : (upStrip (pyStr resAsin) != "" &&
        (invAsins inv).contains (upStrip (pyStr resAsin))) = true := by
      rw [Bool.and_eq_true]
      constructor
      · exact bne_iff_ne.mpr h1
      · simpa using h2
    unfold classify_row
    dsimp only
    rw [if_pos hcond]
  · rfl

/-- Witness for C7 at a concrete input: the resolver said `not_found`,
but the asin (after strip/upper) is in the inventory, so the row is
forced to `listed` and mapped to `update_price_stock`. -/
theorem classify_row_spec_witness :
    (classify_row "not_found" (some " b07xyz ") [⟨"b07xyz", "SKU9"⟩]).existence = "listed" ∧
    (classify_row "not_found" (some " b07xyz ") [⟨"b07xyz", "SKU9"⟩]).action =
      "update_price_stock" := by
  refine ⟨(classify_row_spec "not_found" (some " b07xyz ") [⟨"b07xyz", "SKU9"⟩]).1
    ⟨by decide, by decide⟩, ?_⟩
  decide

/-! ### Claims C8, C9: report polling loop -/

/-- If poll `k` is the first terminal observation and the deadline check
never fired before it, the loop returns that payload (given enough
fuel). -/
theorem waitAux_of_terminal (polls : ℕ → Report) (t pe k : ℕ)
    (hterm : isTerminal (polls k).processingStatus = true)
    (hbefore : ∀ i, i < k → isTerminal (polls i).processingStatus = false)
    (hdl : ∀ i, i < k → i * pe ≤ t) :
    ∀ (fuel k0 : ℕ), k0 ≤ k → k - k0 ≤ fuel → waitAux polls t pe fuel k0 = polls k := by
  intro fuel
  induction fuel with
  | zero =>
    intro k0 hk0 hf
    have hk : k0 = k := by omega
    simp [waitAux, hk]
  | succ fuel ih =>
    intro k0 hk0 hf
    rcases eq_or_lt_of_le hk0 with heq | hlt
    · subst heq
      simp [waitAux, hterm]
    · have hnt := hbefore k0 hlt
      have hd := hdl k0 hlt
      simp only [waitAux]
      rw [if_neg (by simp [hnt]), if_neg (by omega : ¬ t < k0 * pe)]
      exact ih (k0 + 1) hlt (by omega)

/-- C8: once a poll observes a terminal status (DONE / CANCELLED / FATAL /
ERROR), `wait_report` returns that payload, and the result does not depend
on any later poll: a second poll sequence agreeing up to the terminal
observation gives the same result (no further polls are consulted; a job
never leaves a terminal state). -/
theorem wait_report_stops_at_terminal (polls polls2 : ℕ → Report) (rid : String)
    (t pe k : ℕ) (hpe : 0 < pe)
    (hterm : isTerminal (polls k).processingStatus = true)
    (hbefore : ∀ i, i < k → isTerminal (polls i).processingStatus = false)
    (hdl : ∀ i, i < k → i * pe ≤ t)
    (hagree : ∀ i, i ≤ k → polls2 i = polls i) :
    wait_report false polls rid t pe = polls k ∧
    wait_report false polls2 rid t pe = polls k := by
  have hfuel : k ≤ t / pe + 2 := by
    rcases Nat.eq_zero_or_pos k with hk0 | hk0
    · subst hk0
      exact Nat.zero_le _
    · have h1 := hdl (k - 1) (by omega)
      have h2 : k - 1 ≤ t / pe := (Nat.le_div_iff_mul_le hpe).mpr h1
      generalize hq : t / pe = q at h2 ⊢
      omega
  constructor
  · show waitAux polls t pe (t / pe + 2) 0 = polls k
    exact waitAux_of_terminal polls t pe k hterm hbefore hdl (t / pe + 2) 0 (Nat.zero_le _)
      hfuel
  · show waitAux polls2 t pe (t / pe + 2) 0 = polls k
    have hterm2 : isTerminal (polls2 k).processingStatus = true := by
      rw [hagree k (le_refl k)]
      exact hterm
    have hbefore2 : ∀ i, i < k → isTerminal (polls2 i).processingStatus = false := by
      intro i hi
      rw [hagree i (le_of_lt hi)]
      exact hbefore i hi
    have h := waitAux_of_terminal polls2 t pe k hterm2 hbefore2 hdl
      (t / pe + 2) 0 (Nat.zero_le _) hfuel
    rw [h, hagree k (le_refl k)]

/-- Witness for C8: IN_PROGRESS twice, DONE at poll 2, deadline 100s at
10s intervals. -/
theorem wait_report_stops_at_terminal_witness :
    wait_report false pollsC8 "R1" 100 10 = pollsC8 2 ∧
    wait_report false pollsC8 "R1" 100 10 = pollsC8 2 :=
  wait_report_stops_at_terminal pollsC8 pollsC8 "R1" 100 10 2 (by decide) (by decide)
    (by decide) (by decide) (fun _ _ => rfl)

/-- If no poll up to `K` is terminal, the deadline check never fired
before `K`, and it fires at `K`, the loop returns poll `K` (given enough
fuel). -/
theorem waitAux_timeout (polls : ℕ → Report) (t pe K : ℕ)
    (hnone : ∀ i, i ≤ K → isTerminal (polls i).processingStatus = false)
    (hdl : ∀ i, i < K → i * pe ≤ t)
    (hK : t < K * pe) :
    ∀ (fuel k0 : ℕ), k0 ≤ K → K - k0 ≤ fuel → waitAux polls t pe fuel k0 = polls K := by
  intro fuel
  induction fuel with
  | zero =>
    intro k0 hk0 hf
    have hk : k0 = K := by omega
    simp [waitAux, hk]
  | succ fuel ih =>
    intro k0 hk0 hf
    rcases eq_or_lt_of_le hk0 with heq | hlt
    · subst heq
      simp only [waitAux]
      rw [if_neg (by simp [hnone k0 (le_refl k0)]), if_pos hK]
    · have hnt := hnone k0 (le_of_lt hlt)
      have hd := hdl k0 hlt
      simp only [waitAux]
      rw [if_neg (by simp [hnt]), if_neg (by omega : ¬ t < k0 * pe)]
      exact ih (k0 + 1) hlt (by omega)

/-- C9: if every poll is non-terminal, `wait_report` returns — without any
exception (the embedded function is total) — the payload of the first
poll past the deadline (`⌊t/pe⌋ + 1` sleeps have elapsed), i.e. the last
observed non-terminal payload. -/
theorem wait_report_timeout_returns_last (polls : ℕ → Report) (rid : String) (t pe : ℕ)
    (hpe : 0 < pe)
    (hnone : ∀ i, isTerminal (polls i).processingStatus = false) :
    wait_report false polls rid t pe = polls (t / pe + 1) := by
  have hdl : ∀ i, i < t / pe + 1 → i * pe ≤ t := by
    intro i hi
    calc i * pe ≤ (t / pe) * pe := Nat.mul_le_mul_right pe (by omega)
      _ ≤ t := Nat.div_mul_le_self t pe
  have hK : t < (t / pe + 1) * pe := by
    calc t = pe * (t / pe) + t % pe := (Nat.div_add_mod t pe).symm
      _ < pe * (t / pe) + pe := Nat.add_lt_add_left (Nat.mod_lt t hpe) _
      _ = (t / pe + 1) * pe := by ring
  show waitAux polls t pe (t / pe + 2) 0 = polls (t / pe + 1)
  exact waitAux_timeout polls t pe (t / pe + 1) (fun i _ => hnone i) hdl hK
    (t / pe + 2) 0 (Nat.zero_le _) (Nat.le_succ _)

/-- Witness for C9: always IN_PROGRESS, deadline 30s at 10s intervals —
the caller receives the last IN_PROGRESS payload. -/
theorem wait_report_timeout_returns_last_witness :
    wait_report false pollsC9 "R1" 30 10 = inprogR :=
  wait_report_timeout_returns_last pollsC9 "R1" 30 10 (by decide) (fun _ => rfl)
